import Mathlib

/-!
Verification development for the vera document-validation backend.

The definitions below are a shallow embedding, into Lean, of the Python
sources under backend/app: services/confidence.py, services/ocr.py,
services/summary.py, services/validation.py and the status enum of
schemas/documents.py.  Python strings are Lean Strings (lists of
characters), floats that only ever get compared against decimal literals
are rationals, database rows are records, and each service function that
can raise ValueError is a function into Except String.  The regular
expressions of the sources are embedded through a small backtracking
matcher over lists of characters whose alternation order, greediness and
scanning order mirror the semantics of Python's re module on the ASCII
inputs the services handle.
-/

set_option linter.unusedVariables false

namespace Vera

/-! ## Character and string utilities (Python str semantics) -/

/-- Python str whitespace (the ASCII part: space, tab, newline, carriage
return, vertical tab, form feed). -/
def pyIsSpace (c : Char) : Bool :=
  c = ' ' || c = '\t' || c = '\n' || c = '\r' || c = '\x0B' || c = '\x0C'

def isAsciiDigit (c : Char) : Bool := '0' ≤ c && c ≤ '9'

def isAsciiAlpha (c : Char) : Bool :=
  ('a' ≤ c && c ≤ 'z') || ('A' ≤ c && c ≤ 'Z')

/-- Python regex word character (ASCII fragment of \w). -/
def isWordChar (c : Char) : Bool := isAsciiAlpha c || isAsciiDigit c || c = '_'

/-- ASCII lower-casing, as str.lower does on the ASCII inputs in play. -/
def toLowerCh (c : Char) : Char :=
  if 'A' ≤ c && c ≤ 'Z' then Char.ofNat (c.toNat + 32) else c

def pyLower (s : String) : String := ⟨s.data.map toLowerCh⟩

def dropLeadingSpaces : List Char → List Char
  | [] => []
  | c :: cs => if pyIsSpace c then dropLeadingSpaces cs else c :: cs

/-- Python str.strip(). -/
def pyStrip (s : String) : String :=
  ⟨dropLeadingSpaces (dropLeadingSpaces s.data.reverse).reverse⟩

/-- Python str.rstrip(). -/
def pyRstrip (s : String) : String :=
  ⟨(dropLeadingSpaces s.data.reverse).reverse⟩

def splitWsAux : List Char → List Char → List String
  | [], [] => []
  | [], acc => [⟨acc.reverse⟩]
  | c :: cs, acc =>
    if pyIsSpace c then
      match acc with
      | [] => splitWsAux cs []
      | _ => (⟨acc.reverse⟩ : String) :: splitWsAux cs []
    else splitWsAux cs (c :: acc)

/-- Python str.split() with no argument: split on whitespace runs,
discarding empty pieces. -/
def pySplitWs (s : String) : List String := splitWsAux s.data []

def splitlinesAux : List Char → List Char → List String
  | [], [] => []
  | [], acc => [⟨acc.reverse⟩]
  | '\r' :: '\n' :: cs, acc => (⟨acc.reverse⟩ : String) :: splitlinesAux cs []
  | c :: cs, acc =>
    if c = '\n' || c = '\r' || c = '\x0B' || c = '\x0C' then
      (⟨acc.reverse⟩ : String) :: splitlinesAux cs []
    else splitlinesAux cs (c :: acc)

/-- Python str.splitlines() (the line breaks that occur in this code base:
\n, \r, \r\n, \x0b, \x0c; no trailing empty line). -/
def pySplitlines (s : String) : List String := splitlinesAux s.data []

def listIsPre : List Char → List Char → Bool
  | [], _ => true
  | _ :: _, [] => false
  | a :: as, b :: bs => a = b && listIsPre as bs

def listHasSub : List Char → List Char → Bool
  | n, [] => n.isEmpty
  | n, c :: t => listIsPre n (c :: t) || listHasSub n t

/-- Python substring test: strContains hay needle mirrors needle in hay. -/
def strContains (hay needle : String) : Bool := listHasSub needle.data hay.data

/-- Case-insensitive literal consumption (re.IGNORECASE literals). -/
def consumeCIAux : List Char → List Char → Option (List Char)
  | [], cs => some cs
  | _ :: _, [] => none
  | p :: ps, c :: cs =>
    if toLowerCh p = toLowerCh c then consumeCIAux ps cs else none

def consumeCI (lit : String) (cs : List Char) : Option (List Char) :=
  consumeCIAux lit.data cs

/-- Index of the last occurrence of a character (Python str.rfind for a
single character, as Option). -/
def lastIdxOf (ch : Char) (cs : List Char) : Option Nat :=
  (List.range cs.length).foldl
    (fun acc i => if cs.getD i ' ' = ch then some i else acc) none

/-- Content of the last comma/dot separated part: Python
value.split(sep)[-1]. -/
def lastPartAfter (ch : Char) (cs : List Char) : List Char :=
  (cs.reverse.takeWhile (· ≠ ch)).reverse

/-- Python value.isdigit() on ASCII text. -/
def pyIsAllDigits (s : String) : Bool :=
  !s.data.isEmpty && s.data.all isAsciiDigit

/-! ## A small backtracking regex matcher

A pattern maps the input suffix to the list of possible remainders, in
the priority order of Python's backtracking engine (greedy alternatives
first).  The first element of the list is the remainder of the match
Python's re module would produce.  Starred sub-patterns in the sources
always consume at least one character, so fuelling the star with the
length of the input reproduces re's semantics. -/

def Pat : Type := List Char → List (List Char)

def pFail : Pat := fun _ => []

def pEps : Pat := fun cs => [cs]

def pCh (p : Char → Bool) : Pat := fun cs =>
  match cs with
  | [] => []
  | c :: t => if p c then [t] else []

def pLitCI (s : String) : Pat := fun cs =>
  match consumeCI s cs with
  | some rest => [rest]
  | none => []

def pSeq (p q : Pat) : Pat := fun cs => (p cs).flatMap q

def pAlt (p q : Pat) : Pat := fun cs => p cs ++ q cs

def pAlts (ps : List Pat) : Pat := ps.foldr pAlt pFail

/-- Greedy option: prefer consuming. -/
def pOpt (p : Pat) : Pat := fun cs => p cs ++ [cs]

def pRepF (p : Pat) : Nat → Pat
  | 0 => fun cs => [cs]
  | n + 1 => fun cs =>
    (((p cs).filter (fun r => r.length < cs.length)).flatMap (pRepF p n)) ++ [cs]

/-- Greedy Kleene star. -/
def pStar (p : Pat) : Pat := fun cs => pRepF p cs.length cs

def pTimes (p : Pat) : Nat → Pat
  | 0 => pEps
  | n + 1 => pSeq p (pTimes p n)

/-- Greedy at-most-n repetition. -/
def pAtMost (p : Pat) : Nat → Pat
  | 0 => pEps
  | n + 1 => fun cs => ((p cs).flatMap (pAtMost p n)) ++ [cs]

/-- Greedy {m,n} repetition. -/
def pBetween (p : Pat) (m n : Nat) : Pat := pSeq (pTimes p m) (pAtMost p (n - m))

/-- Greedy {m,} repetition. -/
def pAtLeast (p : Pat) (m : Nat) : Pat := pSeq (pTimes p m) (pStar p)

/-- Greedy + repetition. -/
def pPlus (p : Pat) : Pat := pSeq p (pStar p)

/-- End of input ($ on the stripped, newline-free strings in play). -/
def pEnd : Pat := fun cs => if cs.isEmpty then [[]] else []

/-- Trailing word boundary, placed in the sources only after \d or a word
character: the next character must be absent or a non-word character. -/
def pWb : Pat := fun cs =>
  match cs with
  | [] => [[]]
  | c :: t => if isWordChar c then [] else [c :: t]

/-- Word boundary test between the previous character and the head of the
remaining input (used for a leading \b). -/
def atBoundary (prev : Option Char) (cs : List Char) : Bool :=
  let pw := (prev.map isWordChar).getD false
  match cs with
  | [] => pw
  | c :: _ => pw != isWordChar c

/-- Length of the match a pattern produces at the current position, if
any (the head of the remainder list, as in Python's re). -/
def firstMatchLen (p : Pat) (cs : List Char) : Option Nat :=
  match p cs with
  | [] => none
  | r :: _ => some (cs.length - r.length)

/-- re.finditer / re.findall scanning: try the pattern at every position
from the left, emit non-overlapping matches, resume after each match.
needWb asks for a word boundary at the start of the match (a leading \b in
the pattern).  Every step consumes at least one character, so fuel equal
to the input length makes the recursion structural without changing the
result. -/
def scanMatches (p : Pat) (needWb : Bool) : Nat → Option Char → List Char → List String
  | 0, _, _ => []
  | _, _, [] => []
  | fuel + 1, prev, c :: t =>
    let cs := c :: t
    let step := scanMatches p needWb fuel (some c) t
    if !needWb || atBoundary prev cs then
      match firstMatchLen p cs with
      | some n =>
        if 0 < n then
          (⟨cs.take n⟩ : String) ::
            scanMatches p needWb fuel (cs.getD (n - 1) c) (cs.drop n)
        else step
      | none => step
    else step

def reFindall (p : Pat) (needWb : Bool) (s : String) : List String :=
  scanMatches p needWb s.data.length none s.data

/-- re.search as a boolean: does the pattern match anywhere? -/
def reSearch (p : Pat) (needWb : Bool) (s : String) : Bool :=
  !(reFindall p needWb s).isEmpty

/-- re.match as a boolean: does the pattern match at the start? -/
def reMatchStart (p : Pat) (s : String) : Bool :=
  !(p s.data).isEmpty

/-! ## services/confidence.py -/

def digitP : Pat := pCh isAsciiDigit

def spaceP : Pat := pCh pyIsSpace

/-- CURRENCY_PATTERN: (anchored) (£|\$|€)\s*\d{1,3}(?:,\d{3})*(?:\.\d{2})?$ -/
def currencyFlagPat : Pat :=
  pSeq (pCh (fun c => c = '£' || c = '$' || c = '€'))
    (pSeq (pStar spaceP)
      (pSeq (pBetween digitP 1 3)
        (pSeq (pStar (pSeq (pCh (· = ',')) (pTimes digitP 3)))
          (pSeq (pOpt (pSeq (pCh (· = '.')) (pTimes digitP 2))) pEnd))))

/-- DATE_PATTERN: (anchored) slash/dash numeric d{1,2} sep d{1,2} sep
d{2,4}, or ISO d{4}-d{2}-d{2}, then end of input. -/
def dateFlagPat : Pat :=
  pSeq
    (pAlt
      (pSeq (pBetween digitP 1 2)
        (pSeq (pCh (fun c => c = '/' || c = '-'))
          (pSeq (pBetween digitP 1 2)
            (pSeq (pCh (fun c => c = '/' || c = '-')) (pBetween digitP 2 4)))))
      (pSeq (pTimes digitP 4)
        (pSeq (pCh (· = '-'))
          (pSeq (pTimes digitP 2) (pSeq (pCh (· = '-')) (pTimes digitP 2))))))
    pEnd

/-- TOTAL_PATTERN: \b(total|amount\s+due|balance\s+due|grand\s+total)\b, IGNORECASE. -/
def totalFlagPat : Pat :=
  pSeq
    (pAlts
      [pLitCI "total",
       pSeq (pLitCI "amount") (pSeq (pPlus spaceP) (pLitCI "due")),
       pSeq (pLitCI "balance") (pSeq (pPlus spaceP) (pLitCI "due")),
       pSeq (pLitCI "grand") (pSeq (pPlus spaceP) (pLitCI "total"))])
    pWb

/-- INVOICE_PATTERN: \b(invoice|inv|receipt)\s*#?\s*\d+\b, IGNORECASE. -/
def invoiceFlagPat : Pat :=
  pSeq (pAlts [pLitCI "invoice", pLitCI "inv", pLitCI "receipt"])
    (pSeq (pStar spaceP)
      (pSeq (pOpt (pCh (· = '#')))
        (pSeq (pStar spaceP) (pSeq (pPlus digitP) pWb))))

/-- MALFORMED_PRICE_PATTERN: \d+\.\d$ as a search, i.e. the trimmed text
ends in at least one digit, a dot and exactly one final digit. -/
def malformedPriceHit (s : String) : Bool :=
  match s.data.reverse with
  | a :: '.' :: b :: _ => isAsciiDigit a && isAsciiDigit b
  | _ => false

/-- classify_confidence (confidence.py). Scores are embedded as
rationals. -/
def classifyConfidence (score : ℚ) : String :=
  if score ≥ 92 / 100 then "trusted"
  else if score ≥ 80 / 100 then "medium"
  else "low"

/-- detect_forced_flags (confidence.py). -/
def detectForcedFlags (text : String) : List String :=
  let trimmed := pyStrip text
  (if reMatchStart currencyFlagPat trimmed then ["currency_amount"] else []) ++
  (if reMatchStart dateFlagPat trimmed then ["date"] else []) ++
  (if reSearch totalFlagPat true trimmed then ["total_keyword"] else []) ++
  (if reSearch invoiceFlagPat true trimmed then ["invoice_number"] else []) ++
  (if malformedPriceHit trimmed then ["malformed_price"] else [])

/-! ## services/ocr.py: the per-token confidence decision (lines 132-135)

run_ocr_for_document labels every grouped OCR token and forces it into
review when the label is not trusted or a flag was detected. -/

structure OcrTokenDecision where
  confidenceLabel : String
  flags : List String
  forcedReview : Bool
deriving Repr, DecidableEq

/-- The confidence-related fields of the Token persisted at OCR
completion for a raw token with the given text and confidence score. -/
def mkOcrDecision (text : String) (confidence : ℚ) : OcrTokenDecision :=
  let label := classifyConfidence confidence
  let flags := detectForcedFlags text
  { confidenceLabel := label
    flags := flags
    forcedReview := label != "trusted" || flags.length > 0 }

/-! ## services/summary.py: extraction rules engine

The extraction-rules file app/config/extraction_rules.json does not exist
in the repository, so _load_rules returns the empty mapping and every
rules.get call below uses its in-code default, which is what these
definitions embed. -/

/-- _detect_doc_type's keyword table: rules.get("doc_type_keywords", {})
with the empty rules mapping. -/
def rulesDocTypeKeywords : List (String × List String) := []

/-- _detect_doc_type (summary.py). -/
def detectDocType (lines : List String) : String :=
  let blob := "\n".intercalate (lines.map pyLower)
  match rulesDocTypeKeywords.find? (fun e => e.2.any (fun t => strContains blob t)) with
  | some e => e.1
  | none => "general"

/-- Euro-style grouped decimal: d{1,3}(.d{3})+,d{2} with word boundaries. -/
def euroLocalePat : Pat :=
  pSeq (pBetween digitP 1 3)
    (pSeq (pPlus (pSeq (pCh (· = '.')) (pTimes digitP 3)))
      (pSeq (pCh (· = ',')) (pSeq (pTimes digitP 2) pWb)))

/-- Comma-decimal: d{1,3},d{2} with word boundaries. -/
def commaDecimalPat : Pat :=
  pSeq (pBetween digitP 1 3)
    (pSeq (pCh (· = ',')) (pSeq (pTimes digitP 2) pWb))

/-- _detect_locale (summary.py). -/
def detectLocale (lines : List String) : String :=
  if lines.any (fun l => reSearch euroLocalePat true l || reSearch commaDecimalPat true l)
  then "EU" else "US"

/-- currency_symbol_pattern: symbol, optional spaces, d{1,3}, grouped
triplets, a final two-digit group; no word boundaries. -/
def curSymPat : Pat :=
  pSeq (pCh (fun c => c = '£' || c = '$' || c = '€'))
    (pSeq (pStar spaceP)
      (pSeq (pBetween digitP 1 3)
        (pSeq (pStar (pSeq (pCh (fun c => c = '.' || c = ',')) (pTimes digitP 3)))
          (pSeq (pCh (fun c => c = '.' || c = ',')) (pTimes digitP 2)))))

def currencyCodes : List String := ["USD", "AUD", "CAD", "GBP", "EUR"]

/-- currency_code_pattern: a code, optional spaces, then the same numeric
body, word boundaries at both ends, IGNORECASE. -/
def curCodePat : Pat :=
  pSeq (pAlts (currencyCodes.map pLitCI))
    (pSeq (pStar spaceP)
      (pSeq (pBetween digitP 1 3)
        (pSeq (pStar (pSeq (pCh (fun c => c = '.' || c = ',')) (pTimes digitP 3)))
          (pSeq (pCh (fun c => c = '.' || c = ',')) (pSeq (pTimes digitP 2) pWb)))))

/-- number_amount_pattern: the bare numeric body with word boundaries. -/
def numAmountPat : Pat :=
  pSeq (pBetween digitP 1 3)
    (pSeq (pStar (pSeq (pCh (fun c => c = '.' || c = ',')) (pTimes digitP 3)))
      (pSeq (pCh (fun c => c = '.' || c = ',')) (pSeq (pTimes digitP 2) pWb)))

/-- total_terms default (rules.get fallback at summary.py line 100). -/
def totalTerms : List String :=
  ["total", "amount due", "balance due", "grand total", "total due"]

/-- subtotal_terms default. -/
def subtotalTerms : List String :=
  ["subtotal", "sub total", "tax", "vat", "amount", "balance", "due"]

def toUpperCh (c : Char) : Char :=
  if 'a' ≤ c && c ≤ 'z' then Char.ofNat (c.toNat - 32) else c

def pyUpper (s : String) : String := ⟨s.data.map toUpperCh⟩

/-- Word boundary directly after a word character: next char absent or
non-word. -/
def wbAfterWord : List Char → Bool
  | [] => true
  | c :: _ => !isWordChar c

/-- One currency code (all are three letters) matched at the head of the
input with word boundaries on both sides, IGNORECASE; returns the matched
text in its original casing. -/
def codeHeadMatch (prev : Option Char) (cs : List Char) : Option String :=
  if atBoundary prev cs then
    currencyCodes.findSome? (fun code =>
      match consumeCI code cs with
      | some rest => if wbAfterWord rest then some (⟨cs.take 3⟩ : String) else none
      | none => none)
  else none

/-- re.search for the standalone currency-code pattern inside
normalize_amount (the group(1) text). -/
def findCurrencyCode : Option Char → List Char → Option String
  | _, [] => none
  | prev, c :: t =>
    match codeHeadMatch prev (c :: t) with
    | some m => some m
    | none => findCurrencyCode (some c) t

/-- re.sub removing every standalone currency code (all codes have three
characters, so a match consumes c and two further characters).  Fuel
equal to the input length makes the recursion structural. -/
def stripCurrencyCodes : Nat → Option Char → List Char → List Char
  | 0, _, cs => cs
  | _, _, [] => []
  | fuel + 1, prev, c :: t =>
    match codeHeadMatch prev (c :: t) with
    | some _ => stripCurrencyCodes fuel ((c :: t).getD 2 c) (t.drop 2)
    | none => c :: stripCurrencyCodes fuel (some c) t

/-- normalize_amount (summary.py lines 105-139), with the document locale
passed explicitly in place of the closure variable. -/
def normalizeAmount (locale : String) (value : String) : String :=
  let raw0 := (pyStrip value).data
  let (pre1, raw1) :=
    match findCurrencyCode none raw0 with
    | some code =>
      (pyUpper code ++ " ", (pyStrip ⟨stripCurrencyCodes raw0.length none raw0⟩).data)
    | none => ("", raw0)
  let (pre2, raw2) :=
    match raw1 with
    | c :: t =>
      if c = '$' || c = '£' || c = '€' then (String.singleton c, (pyStrip ⟨t⟩).data)
      else (pre1, raw1)
    | [] => (pre1, raw1)
  let raw3 := raw2.filter (· ≠ ' ')
  let hasComma := raw3.contains ','
  let hasDot := raw3.contains '.'
  let raw4 :=
    if hasComma && hasDot then
      let ci := (lastIdxOf ',' raw3).getD 0
      let di := (lastIdxOf '.' raw3).getD 0
      let dec := if ci > di then ',' else '.'
      let tho := if dec = ',' then '.' else ','
      (raw3.filter (· ≠ tho)).map (fun c => if c = dec then '.' else c)
    else if locale = "EU" && hasComma then
      (raw3.filter (· ≠ '.')).map (fun c => if c = ',' then '.' else c)
    else if locale = "US" && hasComma then
      if (lastPartAfter ',' raw3).length = 2 then
        (raw3.filter (· ≠ '.')).map (fun c => if c = ',' then '.' else c)
      else raw3.filter (· ≠ ',')
    else if hasDot then
      if (lastPartAfter '.' raw3).length = 2 then raw3.filter (· ≠ ',')
      else raw3.filter (· ≠ '.')
    else raw3
  pyStrip (pre2 ++ (⟨raw4⟩ : String))

/-- extract_amounts_from_line (summary.py lines 141-146). -/
def extractAmountsFromLine (line : String) (allowPlain : Bool) : List String :=
  let values := reFindall curSymPat false line ++ reFindall curCodePat true line
  if allowPlain && values.isEmpty then values ++ reFindall numAmountPat true line
  else values

/-- add_amounts: normalize then deduplicate by normalized value,
first-seen order (state is (seen, out)). -/
def addAmounts (locale : String) (st : List String × List String)
    (values : List String) : List String × List String :=
  values.foldl
    (fun st v =>
      let n := normalizeAmount locale v
      if st.1.contains n then st else (st.1 ++ [n], st.2 ++ [n]))
    st

/-- The three amount-extraction passes of _build_summary_from_text
(summary.py lines 159-170): total-keyword lines, subtotal-keyword lines,
then all lines without the plain-number fallback. -/
def extractAllAmounts (locale : String) (lines : List String) : List String :=
  let st1 := lines.foldl
    (fun st line =>
      if totalTerms.any (fun t => strContains (pyLower line) t) then
        addAmounts locale st (extractAmountsFromLine line true)
      else st)
    (([], []) : List String × List String)
  let st2 := lines.foldl
    (fun st line =>
      if subtotalTerms.any (fun t => strContains (pyLower line) t) then
        addAmounts locale st (extractAmountsFromLine line true)
      else st)
    st1
  let st3 := lines.foldl
    (fun st line => addAmounts locale st (extractAmountsFromLine line false))
    st2
  st3.2

/-! ### Date extraction -/

/-- Month-name alternation of date patterns 3 and 4, in source order
(IGNORECASE; "sep" precedes "sept" exactly as in the source). -/
def monthAlt : Pat :=
  pAlts
    [pLitCI "jan", pLitCI "feb", pLitCI "mar", pLitCI "apr", pLitCI "may",
     pLitCI "jun", pLitCI "jul", pLitCI "aug", pLitCI "sep", pLitCI "sept",
     pLitCI "oct", pLitCI "nov", pLitCI "dec"]

/-- Under IGNORECASE the class [a-z] also matches upper case. -/
def alphaCI : Pat := pCh isAsciiAlpha

def datePat1 : Pat :=
  pSeq (pTimes digitP 4)
    (pSeq (pCh (fun c => c = '-' || c = '/' || c = '.'))
      (pSeq (pTimes digitP 2)
        (pSeq (pCh (fun c => c = '-' || c = '/' || c = '.'))
          (pSeq (pTimes digitP 2) pWb))))

def datePat2 : Pat :=
  pSeq (pBetween digitP 1 2)
    (pSeq (pCh (fun c => c = '/' || c = '-'))
      (pSeq (pBetween digitP 1 2)
        (pSeq (pCh (fun c => c = '/' || c = '-'))
          (pSeq (pBetween digitP 2 4) pWb))))

def datePat3 : Pat :=
  pSeq monthAlt
    (pSeq (pStar alphaCI)
      (pSeq (pPlus spaceP)
        (pSeq (pBetween digitP 1 2)
          (pSeq (pOpt (pCh (· = ',')))
            (pSeq (pPlus spaceP) (pSeq (pBetween digitP 2 4) pWb))))))

def datePat4 : Pat :=
  pSeq (pBetween digitP 1 2)
    (pSeq (pPlus spaceP)
      (pSeq monthAlt
        (pSeq (pStar alphaCI)
          (pSeq (pPlus spaceP) (pSeq (pBetween digitP 2 4) pWb)))))

def datePat5 : Pat :=
  pSeq (pBetween digitP 1 2)
    (pSeq (pCh (· = '.'))
      (pSeq (pBetween digitP 1 2)
        (pSeq (pCh (· = '.')) (pSeq (pBetween digitP 2 4) pWb))))

def datePats : List Pat := [datePat1, datePat2, datePat3, datePat4, datePat5]

/-- Date extraction (summary.py lines 82-91): all five patterns per line
in fixed order, first-seen-wins deduplication of the stripped match. -/
def extractDates (lines : List String) : List String :=
  (lines.foldl
    (fun st line =>
      datePats.foldl
        (fun st p =>
          (reFindall p true line).foldl
            (fun st m =>
              let v := pyStrip m
              if st.1.contains v then st else (st.1 ++ [v], st.2 ++ [v]))
            st)
        st)
    (([], []) : List String × List String)).2

/-! ### Identifier extraction -/

def idGroupCh (c : Char) : Bool := isAsciiAlpha c || isAsciiDigit c || c = '-'

/-- Final capture group of the invoice/tax patterns: optional spaces then
a greedy run of [A-Za-z0-9-] of at least minLen characters. -/
def groupTail (minLen : Nat) (cs : List Char) : List (String × List Char) :=
  let cs5 := dropLeadingSpaces cs
  let run := cs5.takeWhile idGroupCh
  if run.length ≥ minLen then [(⟨run⟩, cs5.drop run.length)] else []

/-- Optional spaces, an optional colon/hash, optional spaces, then the
capture group (both branches of the option, consuming first). -/
def colonTail (minLen : Nat) (cs : List Char) : List (String × List Char) :=
  let cs3 := dropLeadingSpaces cs
  let branches :=
    (match cs3 with
     | c :: t => if c = ':' || c = '#' then [t] else []
     | [] => []) ++ [cs3]
  branches.flatMap (groupTail minLen)

/-- invoice_pattern's keyword alternation, in source order. -/
def invKeywordList : List String :=
  ["invoice", "receipt", "order", "po", "purchase order", "reference", "ref", "ticket"]

/-- The optional middle of invoice_pattern, (?:no.?|number|#|id)?, in
backtracking priority order (present first, empty last). -/
def invMidBranches (cs : List Char) : List (List Char) :=
  (consumeCI "no." cs).toList ++ (consumeCI "no" cs).toList ++
  (consumeCI "number" cs).toList ++ (consumeCI "#" cs).toList ++
  (consumeCI "id" cs).toList ++ [cs]

/-- invoice_pattern matched at the current position: leading word
boundary, keyword, optional spaces, optional designator, separator tail,
capture group of at least three characters.  Returns the captured group
and the total match length. -/
def invoiceIdAt (prev : Option Char) (cs : List Char) : Option (String × Nat) :=
  if atBoundary prev cs then
    ((invKeywordList.flatMap (fun kw =>
        match consumeCI kw cs with
        | some rest => (invMidBranches (dropLeadingSpaces rest)).flatMap (colonTail 3)
        | none => [])).head?).map
      (fun gr => (gr.1, cs.length - gr.2.length))
  else none

/-- The required middle of tax_pattern, (?:id|number|no.?). -/
def taxMidBranches (cs : List Char) : List (List Char) :=
  (consumeCI "id" cs).toList ++ (consumeCI "number" cs).toList ++
  (consumeCI "no." cs).toList ++ (consumeCI "no" cs).toList

/-- tax_pattern matched at the current position (group of at least five
characters). -/
def taxIdAt (prev : Option Char) (cs : List Char) : Option (String × Nat) :=
  if atBoundary prev cs then
    (((["vat", "tax"].flatMap (fun kw =>
        match consumeCI kw cs with
        | some rest => (taxMidBranches (dropLeadingSpaces rest)).flatMap (colonTail 5)
        | none => []))).head?).map
      (fun gr => (gr.1, cs.length - gr.2.length))
  else none

/-- re.findall for a capture-group pattern: scan left to right, emit the
group of each non-overlapping match.  Fuel equal to the input length
makes the recursion structural. -/
def scanGroupMatches (atFn : Option Char → List Char → Option (String × Nat)) :
    Nat → Option Char → List Char → List String
  | 0, _, _ => []
  | _, _, [] => []
  | fuel + 1, prev, c :: t =>
    match atFn prev (c :: t) with
    | some (g, n) =>
      if 0 < n then
        g :: scanGroupMatches atFn fuel ((c :: t).getD (n - 1) c) ((c :: t).drop n)
      else scanGroupMatches atFn fuel (some c) t
    | none => scanGroupMatches atFn fuel (some c) t

def reFindallGroups (atFn : Option Char → List Char → Option (String × Nat))
    (s : String) : List String :=
  scanGroupMatches atFn s.data.length none s.data

/-- email_pattern. -/
def emailPat : Pat :=
  pSeq (pPlus (pCh (fun c =>
      isAsciiAlpha c || isAsciiDigit c || c = '.' || c = '_' || c = '%' ||
      c = '+' || c = '-')))
    (pSeq (pCh (· = '@'))
      (pSeq (pPlus (pCh (fun c => isAsciiAlpha c || isAsciiDigit c || c = '.' || c = '-')))
        (pSeq (pCh (· = '.')) (pSeq (pTimes alphaCI 2) (pStar alphaCI)))))

/-- phone_pattern. -/
def phonePat : Pat :=
  let sepOpt := pOpt (pCh (fun c => pyIsSpace c || c = '.' || c = '-'))
  pSeq
    (pOpt (pSeq (pOpt (pCh (· = '+'))) (pSeq (pBetween digitP 1 3) sepOpt)))
    (pSeq
      (pOpt (pSeq (pOpt (pCh (· = '(')))
        (pSeq (pBetween digitP 2 4) (pSeq (pOpt (pCh (· = ')'))) sepOpt))))
      (pSeq (pBetween digitP 3 4) (pSeq sepOpt (pTimes digitP 4))))

structure IdLists where
  invoices : List String
  taxIds : List String
  emails : List String
  phones : List String
deriving Repr, DecidableEq

/-- The per-line identifier loop of _build_summary_from_text (summary.py
lines 194-216), including the phone/tax-ID suppression rule. -/
def extractIds (lines : List String) : IdLists :=
  let step := fun (st : IdLists × List String × List String × List String × List String)
      (line : String) =>
    let (acc, seenInv, seenTax, seenEm, seenPh) := st
    let normalizedLine := pyLower line
    let (invs, seenInv) := (reFindallGroups invoiceIdAt line).foldl
      (fun (p : List String × List String) m =>
        let v := pyStrip m
        if v ≠ "" && !p.2.contains v then (p.1 ++ [v], p.2 ++ [v]) else p)
      (acc.invoices, seenInv)
    let (taxs, seenTax) := (reFindallGroups taxIdAt line).foldl
      (fun (p : List String × List String) m =>
        let v := pyStrip m
        if v ≠ "" && !p.2.contains v then (p.1 ++ [v], p.2 ++ [v]) else p)
      (acc.taxIds, seenTax)
    let (ems, seenEm) := (reFindall emailPat false line).foldl
      (fun (p : List String × List String) m =>
        if !p.2.contains m then (p.1 ++ [m], p.2 ++ [m]) else p)
      (acc.emails, seenEm)
    let (phs, seenPh) := (reFindall phonePat false line).foldl
      (fun (p : List String × List String) m =>
        let v := pyStrip m
        if pyIsAllDigits v &&
            (strContains normalizedLine "vat" || strContains normalizedLine "tax" ||
             strContains normalizedLine "id") then p
        else if v ≠ "" && !p.2.contains v then (p.1 ++ [v], p.2 ++ [v]) else p)
      (acc.phones, seenPh)
    (⟨invs, taxs, ems, phs⟩, seenInv, seenTax, seenEm, seenPh)
  (lines.foldl step (⟨[], [], [], []⟩, [], [], [], [])).1

/-! ### Keyword ranking -/

def stopwords : List String :=
  ["a", "an", "and", "are", "as", "at", "be", "by", "for", "from", "has",
   "in", "is", "it", "of", "on", "or", "that", "the", "to", "was", "were",
   "will", "with"]

def kwTailCh (c : Char) : Bool :=
  isAsciiAlpha c || isAsciiDigit c || c = Char.ofNat 39 || c = '-'

/-- re.findall for the keyword token pattern: a letter followed by one or
more letters/digits/apostrophes/hyphens, greedy, non-overlapping.  Fuel
equal to the input length makes the recursion structural. -/
def kwScanAux : Nat → List Char → List String
  | 0, _ => []
  | _, [] => []
  | fuel + 1, c :: t =>
    if isAsciiAlpha c then
      let run := t.takeWhile kwTailCh
      if 0 < run.length then
        (⟨c :: run⟩ : String) :: kwScanAux fuel (t.drop run.length)
      else kwScanAux fuel t
    else kwScanAux fuel t

def bumpCount (m : List (String × Nat)) (w : String) : List (String × Nat) :=
  if m.any (fun p => p.1 = w) then
    m.map (fun p => if p.1 = w then (p.1, p.2 + 1) else p)
  else m ++ [(w, 1)]

/-- keyword_counts of _build_summary_from_text (summary.py lines
398-403). -/
def keywordCounts (text : String) : List (String × Nat) :=
  (kwScanAux (pyLower text).data.length (pyLower text).data).foldl
    (fun m w => if w.length < 3 || stopwords.contains w then m else bumpCount m w)
    []

/-- sorted(..., key=(-count, word)): higher count first, then
lexicographically smaller word first. -/
def kwRel (a b : String × Nat) : Prop := b.2 < a.2 ∨ (a.2 = b.2 ∧ a.1 ≤ b.1)

instance : DecidableRel kwRel := fun a b => by
  unfold kwRel; infer_instance

def topKeywords (text : String) : List String :=
  (((keywordCounts text).insertionSort kwRel).take 5).map Prod.fst

/-! ### Deterministic narrative builder and the LLM collaborator -/

/-- SUMMARY_MAX_CHARS default. -/
def summaryMaxChars : Nat := 2000

def hasTerminalPunct (s : String) : Bool :=
  match s.data.reverse with
  | c :: _ => c = '.' || c = '!' || c = '?'
  | [] => false

/-- The paragraph-accumulation loop of build_detailed_summary. -/
def detailedParas : List String → List (List String) → List String → List (List String)
  | [], paras, current => if current.isEmpty then paras else paras ++ [current]
  | line :: rest, paras, current =>
    let cleaned := " ".intercalate (pySplitWs line)
    if cleaned = "" then
      if current.isEmpty then detailedParas rest paras []
      else detailedParas rest (paras ++ [current]) []
    else
      let cleaned := if hasTerminalPunct cleaned then cleaned else cleaned ++ "."
      detailedParas rest paras (current ++ [cleaned])

/-- build_detailed_summary (summary.py lines 296-321). -/
def buildDetailedSummary (rawLines : List String) : String :=
  if rawLines.isEmpty then "No text detected"
  else
    let paras := detailedParas rawLines [] []
    let paraText := (paras.filter (fun s => !s.isEmpty)).map (" ".intercalate ·)
    let summaryText := pyStrip ("\n\n".intercalate paraText)
    let summaryText :=
      if 0 < summaryMaxChars && summaryMaxChars < summaryText.data.length then
        let cutoff := (lastIdxOf ' ' (summaryText.data.take (summaryMaxChars - 1))).getD 0
        let sliceEnd := if cutoff = 0 then summaryMaxChars - 1 else cutoff
        pyRstrip ⟨summaryText.data.take sliceEnd⟩ ++ "..."
      else summaryText
    if summaryText = "" then "No text detected" else summaryText

/-- One attempt of the LLM call inside fetch_llm_detailed_summary: the
service returned a response body (ok), an HTTP error status, or the
request raised. -/
inductive LlmAttempt where
  | ok (body : String)
  | httpError (status : Nat)
  | exception
deriving Repr, DecidableEq

/-- An attempt that yields no usable summary text (error status, blank or
empty response body, or a raised exception). -/
def llmAttemptFails : LlmAttempt → Bool
  | .ok body => pyStrip body = ""
  | .httpError _ => true
  | .exception => true

/-- fetch_llm_detailed_summary (summary.py lines 258-294): walk the
bounded retry attempts, return the first non-empty stripped response
body; every failure path swallows the error and yields none. -/
def fetchLlmDetailedSummary : List LlmAttempt → Option String
  | [] => none
  | .ok body :: rest =>
    let t := pyStrip body
    if t ≠ "" then some t else fetchLlmDetailedSummary rest
  | .httpError _ :: rest => fetchLlmDetailedSummary rest
  | .exception :: rest => fetchLlmDetailedSummary rest

/-! ### Vendor / total / line-item guesses -/

def vendorSkipTerms : List String :=
  ["invoice", "receipt", "statement", "report", "form", "application"]

/-- pick_vendor (summary.py lines 218-229). -/
def pickVendor (candidateLines : List String) : Option String :=
  (candidateLines.take 5).findSome? (fun line =>
    if vendorSkipTerms.any (fun t => strContains (pyLower line) t) then none
    else if (line.data.filter isAsciiAlpha).length < 3 then none
    else some line)

/-- pick_total's own total_terms default (it differs from the top-level
list: it also contains "amount"). -/
def pickTotalTerms : List String :=
  ["total", "amount due", "balance due", "amount", "grand total", "total due"]

/-- pick_total (summary.py lines 231-241). -/
def pickTotal (candidateLines amounts : List String) : Option String :=
  match candidateLines.findSome? (fun line =>
      if pickTotalTerms.any (fun t => strContains (pyLower line) t) then
        (extractAmountsFromLine line true).getLast?
      else none) with
  | some v => some v
  | none => amounts.getLast?

def itemSkipTerms : List String :=
  ["total", "subtotal", "tax", "amount due", "balance", "invoice", "receipt"]

/-- Quantity pattern of pick_items. -/
def qtyPat : Pat :=
  pSeq (pPlus digitP)
    (pSeq (pStar spaceP)
      (pSeq (pAlts [pLitCI "x", pLitCI "qty", pLitCI "quantity"]) pWb))

/-- pick_items (summary.py lines 243-256), stopping once three items are
collected. -/
def pickItemsAux : List String → List String → List String
  | [], items => items
  | line :: rest, items =>
    if itemSkipTerms.any (fun t => strContains (pyLower line) t) then
      pickItemsAux rest items
    else
      let hasPrice := reSearch curSymPat false line || reSearch curCodePat true line
      let hasQty := reSearch qtyPat true (pyLower line)
      let items := if hasPrice || hasQty then items ++ [line] else items
      if items.length ≥ 3 then items else pickItemsAux rest items

def pickItems (candidateLines : List String) : List String :=
  pickItemsAux candidateLines []

/-! ### Document-type signal table -/

/-- doc_signals (summary.py lines 340-353). -/
def docSignals : List (String × List String) :=
  [("Invoice/Receipt",
    ["invoice", "receipt", "subtotal", "total", "amount due", "balance due",
     "vat", "tax", "paid"]),
   ("Statement",
    ["statement", "account", "transactions", "balance", "opening balance",
     "closing balance"]),
   ("Purchase order", ["purchase order", "po number", "ship to", "bill to"]),
   ("Shipping/Delivery",
    ["tracking", "shipment", "delivered", "carrier", "shipping label"]),
   ("Legal/Contract", ["agreement", "contract", "terms", "party", "liability"]),
   ("Form/Application",
    ["application", "form", "please fill", "checkbox", "signature"]),
   ("Report", ["report", "summary", "analysis", "findings"]),
   ("Letter/Correspondence", ["dear", "sincerely", "regards"]),
   ("ID/Certificate",
    ["certificate", "issued", "id number", "passport", "license"])]

/-- Keyword hits of one signal entry against the lowercased blob. -/
def hitsOf (blob : String) (kws : List String) : Nat :=
  (kws.filter (fun k => strContains blob k)).length

/-- The best-label selection loop (summary.py lines 355-361): start from
("Unknown", 0), replace only on strictly more hits. -/
def bestSignal (blob : String) : String × Nat :=
  docSignals.foldl
    (fun best e => if hitsOf blob e.2 > best.2 then (e.1, hitsOf blob e.2) else best)
    ("Unknown", 0)

/-- The confidence ladder (summary.py lines 363-370). -/
def docTypeConfidence (hits : Nat) : String :=
  if hits ≥ 3 then "high"
  else if hits = 2 then "medium"
  else if hits = 1 then "low"
  else "low"

/-! ### _build_summary_from_text -/

def joinOrNotDetected (l : List String) : String :=
  if l.isEmpty then "Not detected" else ", ".intercalate (l.take 5)

/-- The body of _build_summary_from_text after the detailed summary has
been resolved (detailedOpt is the LLM result, if any; summary.py lines
53-435). -/
def buildSummaryCore (validatedText : String) (detailedOpt : Option String)
    (docTypeOverride localeOverride : Option String) :
    List String × List (String × String) :=
  let rawLines := pySplitlines validatedText
  let lines := (rawLines.map pyStrip).filter (fun l => l ≠ "")
  let docType := docTypeOverride.getD (detectDocType lines)
  let locale := localeOverride.getD (detectLocale lines)
  let lineCount := lines.length
  let wordCount := (lines.map (fun l => (pySplitWs l).length)).sum
  let dates := extractDates lines
  let amounts := extractAllAmounts locale lines
  let ids := extractIds lines
  let vendor := pickVendor lines
  let totalValue := pickTotal lines amounts
  let items := pickItems lines
  let dateValue := dates.head?
  let detailedSummary := detailedOpt.getD (buildDetailedSummary rawLines)
  let dateText := joinOrNotDetected dates
  let amountText := joinOrNotDetected amounts
  let invoiceText := joinOrNotDetected ids.invoices
  let emailText := joinOrNotDetected ids.emails
  let phoneText := joinOrNotDetected ids.phones
  let taxText := joinOrNotDetected ids.taxIds
  let textBlob := pyLower ("\n".intercalate lines)
  let best := bestSignal textBlob
  let confidence := docTypeConfidence best.2
  let topKws := topKeywords validatedText
  let keywordText := if topKws.isEmpty then "Not detected" else ", ".intercalate topKws
  let bulletSummary :=
    ["Overview: " ++ toString lineCount ++ " lines · " ++ toString wordCount ++ " words",
     "Document type: " ++ best.1 ++ " (" ++ confidence ++ ")",
     "Detailed summary: " ++ detailedSummary,
     "Keywords: " ++ keywordText,
     "Dates detected: " ++ dateText,
     "Amounts detected: " ++ amountText,
     "All low-confidence items reviewed by user"]
  let structuredFields :=
    [("line_count", toString lineCount),
     ("word_count", toString wordCount),
     ("summary_points", detailedSummary),
     ("detailed_summary", detailedSummary),
     ("dates", dateText),
     ("amounts", amountText),
     ("invoice_numbers", invoiceText),
     ("emails", emailText),
     ("phones", phoneText),
     ("tax_ids", taxText),
     ("document_type", best.1),
     ("document_type_confidence", confidence),
     ("keywords", keywordText),
     ("doc_type", docType),
     ("locale", locale)]
  (bulletSummary, structuredFields)

/-- _build_summary_from_text: with a model override the LLM collaborator
is consulted (its attempts are passed explicitly); without one, or when
it yields nothing, the deterministic builder supplies the detailed
summary inside buildSummaryCore. -/
def buildSummaryFromText (validatedText : String) (modelOverride : Option String)
    (attempts : List LlmAttempt) (docTypeOverride localeOverride : Option String) :
    List String × List (String × String) :=
  let detailedOpt :=
    match modelOverride with
    | some _ => fetchLlmDetailedSummary attempts
    | none => none
  buildSummaryCore validatedText detailedOpt docTypeOverride localeOverride

/-! ## schemas/documents.py: the status enum

DocumentStatus as defined at schemas/documents.py lines 8-14: it has
exactly these six members.  (worker.py additionally dereferences
DocumentStatus.processing and DocumentStatus.failed, which do not exist
on this enum.) -/

inductive DocumentStatus where
  | uploaded
  | ocr_done
  | review_in_progress
  | validated
  | summarized
  | exported
deriving Repr, DecidableEq

/-- The .value string of each member of the str-valued enum. -/
def statusValue : DocumentStatus → String
  | .uploaded => "uploaded"
  | .ocr_done => "ocr_done"
  | .review_in_progress => "review_in_progress"
  | .validated => "validated"
  | .summarized => "summarized"
  | .exported => "exported"

/-! ## services/validation.py: apply_corrections -/

structure VToken where
  id : String
  lineIndex : Nat
  tokenIndex : Nat
  text : String
  forcedReview : Bool
deriving Repr, DecidableEq

structure VDoc where
  status : String
  validatedText : Option String
  structuredFields : List (String × String)
deriving Repr, DecidableEq

/-- A Correction row (append-only audit record). -/
structure CorrectionRec where
  tokenId : String
  originalText : String
  correctedText : String
deriving Repr, DecidableEq

/-- The slice of database state apply_corrections touches for one
document: the document row (if it exists), its tokens, the correction
rows and the audit-log event types, in insertion order. -/
structure VState where
  doc : Option VDoc
  tokens : List VToken
  corrections : List CorrectionRec
  audit : List String
deriving Repr, DecidableEq

/-- The ORDER BY (line_index ASC, token_index ASC) of the token query. -/
def tokOrder (a b : VToken) : Prop :=
  a.lineIndex < b.lineIndex ∨ (a.lineIndex = b.lineIndex ∧ a.tokenIndex ≤ b.tokenIndex)

instance : DecidableRel tokOrder := fun a b => by
  unfold tokOrder; infer_instance

instance : IsTotal VToken tokOrder := ⟨by intro a b; unfold tokOrder; omega⟩

instance : IsTrans VToken tokOrder := ⟨by intro a b c; unfold tokOrder; omega⟩

/-- Python dict insertion: overwriting an existing key keeps its
position, a new key is appended at the end. -/
def dictInsert : List (String × String) → String → String → List (String × String)
  | [], k, v => [(k, v)]
  | p :: m, k, v => if p.1 = k then (k, v) :: m else p :: dictInsert m k v

/-- corrections_by_token: dict built from the correction payloads (later
entries for the same token id overwrite earlier ones). -/
def correctionsDict (corrections : List (String × String)) : List (String × String) :=
  corrections.foldl (fun m kv => dictInsert m kv.1 kv.2) []

/-- corrections_by_token.get(token.id, token.text). -/
def effText (dict : List (String × String)) (t : VToken) : String :=
  (dict.lookup t.id).getD t.text

/-- validated_lines.setdefault(line_index, []).append(text): appending
to an existing key keeps its position, a new key goes to the end. -/
def sdAppend : List (Nat × List String) → Nat → String → List (Nat × List String)
  | [], k, v => [(k, [v])]
  | p :: m, k, v =>
    if p.1 = k then (p.1, p.2 ++ [v]) :: m else p :: sdAppend m k v

/-- The validated_lines dict after the token loop. -/
def groupLines (dict : List (String × String)) (tokens : List VToken) :
    List (Nat × List String) :=
  tokens.foldl (fun m t => sdAppend m t.lineIndex (effText dict t)) []

/-- apply_corrections (validation.py lines 14-137).  Raising inside the
transaction rolls every write back, so the error branches return no
state; datetime.utcnow() is passed in as now.  The returned triple
mirrors (validated_text, status, validated_at). -/
def applyCorrections (st : VState) (corrections : List (String × String))
    (reviewedTokenIds : List String) (reviewComplete : Bool)
    (structuredFields : Option (List (String × String))) (now : Nat) :
    Except String (VState × String × String × Option Nat) :=
  let dict := correctionsDict corrections
  let inReviewedSet := fun (tid : String) =>
    reviewedTokenIds.contains tid || dict.any (fun p => p.1 = tid)
  match st.doc with
  | none => .error "document_not_found"
  | some doc =>
    let forcedIds := (st.tokens.filter (fun t => t.forcedReview)).map (fun t => t.id)
    let missing := forcedIds.filter (fun tid => !inReviewedSet tid)
    if reviewComplete && !missing.isEmpty then .error "review_incomplete"
    else
      let sortedTokens := st.tokens.insertionSort tokOrder
      let newCorrs := sortedTokens.filterMap (fun t =>
        (dict.lookup t.id).map (fun v => ({ tokenId := t.id, originalText := t.text,
                                            correctedText := v } : CorrectionRec)))
      let grouped := groupLines dict sortedTokens
      let keys := (grouped.map Prod.fst).insertionSort (· ≤ ·)
      let validatedText :=
        "\n".intercalate (keys.map (fun k => " ".intercalate ((grouped.lookup k).getD [])))
      let statusText := if reviewComplete then "validated" else "review_in_progress"
      let validatedAt := if reviewComplete then some now else none
      let doc :=
        { doc with
          status := statusText
          validatedText := if reviewComplete then some validatedText else doc.validatedText }
      let doc :=
        match structuredFields with
        | some fs => { doc with structuredFields := fs }
        | none => doc
      let audit := st.audit
        ++ (if !dict.isEmpty then ["corrections_applied"] else [])
        ++ [if reviewComplete then "review_completed" else "review_saved"]
        ++ (match structuredFields with | some _ => ["fields_updated"] | none => [])
      .ok ({ doc := some doc
             tokens := st.tokens
             corrections := st.corrections ++ newCorrs
             audit := audit },
           validatedText, statusText, validatedAt)

/-! ## services/summary.py: build_summary -/

/-- A document row as build_summary reads it.

Modelled from the spec (doc_type and locale): build_summary reads
document.doc_type and document.locale as per-document extraction
overrides, but the Document model in the repository's models/documents.py
does not declare these columns; spec section 4.3 describes them as the
"optional externally supplied document-type/locale overrides", so they
are embedded as optional per-document fields defaulting to none. -/
structure SDoc where
  status : String
  validatedText : Option String
  structuredFields : List (String × String)
  docType : Option String
  locale : Option String
deriving Repr, DecidableEq

/-- Document store plus audit log (document_id, event_type). -/
structure SState where
  docs : List (String × SDoc)
  audit : List (String × String)
deriving Repr, DecidableEq

def updateDoc (docs : List (String × SDoc)) (docId : String) (f : SDoc → SDoc) :
    List (String × SDoc) :=
  docs.map (fun p => if p.1 = docId then (p.1, f p.2) else p)

structure SummaryOutcome where
  bulletSummary : List String
  structuredFields : List (String × String)
  validationStatus : String
deriving Repr, DecidableEq

/-- build_summary (summary.py lines 438-499): not-found and
not-validated checks, then the status transition to summarized, the
extraction run, the structured-fields write-back and the audit entry.
The two commits of the source always run back to back and are collapsed
into one resulting state. -/
def buildSummary (st : SState) (documentId : String) (modelOverride : Option String)
    (attempts : List LlmAttempt) : Except String (SState × SummaryOutcome) :=
  match st.docs.lookup documentId with
  | none => .error "document_not_found"
  | some doc =>
    if !(doc.status = "validated" || doc.status = "summarized") then
      .error "document_not_validated"
    else
      let docTypeOverride := doc.docType
      let localeOverride := doc.locale
      let validatedText := doc.validatedText.getD ""
      let result := buildSummaryFromText validatedText modelOverride attempts
        docTypeOverride localeOverride
      let fields := result.2
      let docs := updateDoc st.docs documentId (fun d =>
        { d with
          status := "summarized"
          structuredFields := fields
          docType := fields.lookup "doc_type"
          locale := fields.lookup "locale" })
      .ok ({ docs := docs, audit := st.audit ++ [(documentId, "summary_generated")] },
           { bulletSummary := result.1
             structuredFields := fields
             validationStatus := "validated" })

/-! ## Specification-side definitions used to state the claims -/

/-- Maximum keyword-hit count over a signal table (0 for the empty
table), used to state the document-type selection property. -/
def maxHitsOf (blob : String) (l : List (String × List String)) : Nat :=
  (l.map (fun e => hitsOf blob e.2)).foldr max 0

def maxHitsList (blob : String) : Nat := maxHitsOf blob docSignals

/-- The distinct line indices of a token list in ascending order, as the
specification's "ascending line-index order". -/
def lineKeysSpec (tokens : List VToken) : List Nat :=
  ((tokens.map (fun t => t.lineIndex)).insertionSort (· ≤ ·)).dedup

/-- Reassembly as the specification words it: for each line index in
ascending order, join the effective texts of that line's tokens (in
token-index order) with single spaces, then join the lines with
newlines. -/
def reassembleSpec (tokens : List VToken) (corrections : List (String × String)) : String :=
  "\n".intercalate ((lineKeysSpec tokens).map (fun k =>
    " ".intercalate (((tokens.insertionSort tokOrder).filter (fun t => t.lineIndex = k)).map
      (effText (correctionsDict corrections)))))

/-! ## Theorems -/

/-- C8: the claim asserts the status model includes a processing state
and a failed terminal state. The DocumentStatus enum of
schemas/documents.py (lines 8-14) has exactly six members and includes
neither, even though worker.py's process_document dereferences
DocumentStatus.processing and DocumentStatus.failed (raising
AttributeError), so no document can ever carry either status. -/
theorem document_status_missing_processing_failed :
    ∀ s : DocumentStatus, statusValue s ≠ "processing" ∧ statusValue s ≠ "failed" := by
  intro s
  cases s <;> exact ⟨by decide, by decide⟩

/-- C5: classify(s) is trusted iff s ≥ 0.92, medium iff 0.80 ≤ s < 0.92,
low iff s < 0.80; and the token fields persisted at OCR completion have
forced_review true iff the tier is not trusted or detect_forced_flags of
the raw text is non-empty. -/
theorem classify_confidence_and_forced_review :
    ∀ (s : ℚ) (text : String),
      ((classifyConfidence s = "trusted") ↔ 92 / 100 ≤ s)
      ∧ ((classifyConfidence s = "medium") ↔ (80 / 100 ≤ s ∧ s < 92 / 100))
      ∧ ((classifyConfidence s = "low") ↔ s < 80 / 100)
      ∧ ((mkOcrDecision text s).forcedReview = true ↔
          (classifyConfidence s ≠ "trusted" ∨ detectForcedFlags text ≠ [])) := by
  intro s text
  refine ⟨?_, ?_, ?_, ?_⟩
  · unfold classifyConfidence
    split_ifs with h1 h2
    · exact ⟨fun _ => h1, fun _ => rfl⟩
    · exact ⟨fun h => absurd h (by decide), fun h => absurd h h1⟩
    · exact ⟨fun h => absurd h (by decide), fun h => absurd h h1⟩
  · unfold classifyConfidence
    split_ifs with h1 h2
    · exact ⟨fun h => absurd h (by decide), fun h => absurd h.2 (not_lt.mpr h1)⟩
    · exact ⟨fun _ => ⟨h2, not_le.mp h1⟩, fun _ => rfl⟩
    · exact ⟨fun h => absurd h (by decide), fun h => absurd h.1 h2⟩
  · unfold classifyConfidence
    split_ifs with h1 h2
    · refine ⟨fun h => absurd h (by decide), fun h => absurd h ?_⟩
      have : (80 : ℚ) / 100 ≤ 92 / 100 := by norm_num
      exact not_lt.mpr (le_trans this h1)
    · exact ⟨fun h => absurd h (by decide), fun h => absurd h (not_lt.mpr h2)⟩
    · exact ⟨fun _ => not_le.mp h2, fun _ => rfl⟩
  · simp only [mkOcrDecision, Bool.or_eq_true, bne_iff_ne, decide_eq_true_eq,
      gt_iff_lt, List.length_pos, ne_eq]

/-- C3: "USD 1,234.50" normalizes to "USD 1234.50" under every locale
(both separators present, rightmost is the decimal), and a document whose
only amount line is "Total 59,99" with no overrides auto-detects the EU
locale and extracts exactly the amount "59.99". -/
theorem amount_normalization_scenarios :
    (∀ locale : String, normalizeAmount locale "USD 1,234.50" = "USD 1234.50")
    ∧ detectLocale ["Total 59,99"] = "EU"
    ∧ extractAllAmounts (detectLocale ["Total 59,99"]) ["Total 59,99"] = ["59.99"]
    ∧ (buildSummaryFromText "Total 59,99" none [] none none).2.lookup "amounts"
        = some "59.99" := by
  refine ⟨fun locale => ?_, by rfl, by rfl, by rfl⟩
  rfl

/-- C4: extraction on "Acme Corp\n2026-02-01\nTotal $12.00" with the
default rules and no overrides yields line_count "3", word_count "5",
dates "2026-02-01", amounts "$12.00" and document_type
"Invoice/Receipt". -/
theorem extraction_scenario_acme :
    ((buildSummaryFromText "Acme Corp\n2026-02-01\nTotal $12.00" none [] none none).2.lookup
        "line_count" = some "3")
    ∧ ((buildSummaryFromText "Acme Corp\n2026-02-01\nTotal $12.00" none [] none none).2.lookup
        "word_count" = some "5")
    ∧ ((buildSummaryFromText "Acme Corp\n2026-02-01\nTotal $12.00" none [] none none).2.lookup
        "dates" = some "2026-02-01")
    ∧ ((buildSummaryFromText "Acme Corp\n2026-02-01\nTotal $12.00" none [] none none).2.lookup
        "amounts" = some "$12.00")
    ∧ ((buildSummaryFromText "Acme Corp\n2026-02-01\nTotal $12.00" none [] none none).2.lookup
        "document_type" = some "Invoice/Receipt") := by
  exact ⟨rfl, rfl, rfl, rfl, rfl⟩

/-- When every attempt fails, the LLM fetch yields nothing (and, by
construction, raises nothing). -/
theorem fetchLlm_none_of_all_fail :
    ∀ attempts : List LlmAttempt,
      (∀ a ∈ attempts, llmAttemptFails a = true) →
      fetchLlmDetailedSummary attempts = none := by
  intro attempts h
  induction attempts with
  | nil => rfl
  | cons a rest ih =>
    have hrest := fun x hx => h x (List.mem_cons_of_mem _ hx)
    cases a with
    | ok body =>
      have hb := h _ (List.mem_cons_self _ _)
      simp only [llmAttemptFails, decide_eq_true_eq] at hb
      simp only [fetchLlmDetailedSummary, hb, ne_eq, not_true_eq_false, if_false,
        ite_false]
      exact ih hrest
    | httpError s => exact (fetchLlmDetailedSummary.eq_def _).symm ▸ ih hrest
    | exception => exact (fetchLlmDetailedSummary.eq_def _).symm ▸ ih hrest

/-- C9: if every LLM attempt fails (error status, blank/empty response or
exception), the summarization output — bullets and structured fields —
equals the deterministic fallback output with no model override on the
same validated text; the embedding of fetch_llm_detailed_summary is a
total function, mirroring that every failure is swallowed rather than
raised. -/
theorem llm_failure_degrades_to_deterministic :
    ∀ attempts : List LlmAttempt,
      (∀ a ∈ attempts, llmAttemptFails a = true) →
      ∀ (text modelName : String) (dOv lOv : Option String),
        buildSummaryFromText text (some modelName) attempts dOv lOv
          = buildSummaryFromText text none [] dOv lOv := by
  intro attempts h text modelName dOv lOv
  unfold buildSummaryFromText
  rw [fetchLlm_none_of_all_fail attempts h]

/-- Witness for C9 at a concrete document and concrete failing attempts
(an exception, an HTTP 500, then a blank response). -/
theorem llm_failure_witness :
    buildSummaryFromText "Line one\nLine two" (some "llama3.1")
        [LlmAttempt.exception, LlmAttempt.httpError 500, LlmAttempt.ok "  "] none none
      = buildSummaryFromText "Line one\nLine two" none [] none none :=
  llm_failure_degrades_to_deterministic
    [LlmAttempt.exception, LlmAttempt.httpError 500, LlmAttempt.ok "  "]
    (by decide) "Line one\nLine two" "llama3.1" none none

/-- C10: for every input, structured_fields has exactly the fifteen keys
in source order, and the bullet summary is exactly the seven lines built
from the line/word counts, the document-type signal scoring, the detailed
summary, the keyword ranking and the date/amount lists.  The vendor guess
(pickVendor), total guess (pickTotal) and line-item guesses (pickItems)
the engine computes internally occur in neither output. -/
theorem structured_fields_keys_and_bullets :
    ∀ (text : String) (mo : Option String) (attempts : List LlmAttempt)
      (dOv lOv : Option String),
      ((buildSummaryFromText text mo attempts dOv lOv).2.map Prod.fst =
        ["line_count", "word_count", "summary_points", "detailed_summary", "dates",
         "amounts", "invoice_numbers", "emails", "phones", "tax_ids", "document_type",
         "document_type_confidence", "keywords", "doc_type", "locale"])
      ∧ ((buildSummaryFromText text mo attempts dOv lOv).1 =
        let rawLines := pySplitlines text
        let lines := (rawLines.map pyStrip).filter (fun l => l ≠ "")
        let locale := lOv.getD (detectLocale lines)
        let detailedSummary :=
          (match mo with
            | some _ => fetchLlmDetailedSummary attempts
            | none => none).getD (buildDetailedSummary rawLines)
        let best := bestSignal (pyLower ("\n".intercalate lines))
        let topKws := topKeywords text
        ["Overview: " ++ toString lines.length ++ " lines · " ++
            toString ((lines.map (fun l => (pySplitWs l).length)).sum) ++ " words",
         "Document type: " ++ best.1 ++ " (" ++ docTypeConfidence best.2 ++ ")",
         "Detailed summary: " ++ detailedSummary,
         "Keywords: " ++ (if topKws.isEmpty then "Not detected" else ", ".intercalate topKws),
         "Dates detected: " ++ joinOrNotDetected (extractDates lines),
         "Amounts detected: " ++ joinOrNotDetected (extractAllAmounts locale lines),
         "All low-confidence items reviewed by user"]) := by
  intro text mo attempts dOv lOv
  exact ⟨rfl, rfl⟩

/-- The running best of the signal loop always carries the maximum of
the accumulator and all hit counts seen. -/
theorem bestFold_snd (blob : String) :
    ∀ (l : List (String × List String)) (b : String) (m : Nat),
      (l.foldl (fun best e =>
        if hitsOf blob e.2 > best.2 then (e.1, hitsOf blob e.2) else best) (b, m)).2
      = max m (maxHitsOf blob l) := by
  intro l
  induction l with
  | nil => intro b m; simp [maxHitsOf]
  | cons e rest ih =>
    intro b m
    simp only [List.foldl_cons]
    by_cases h : hitsOf blob e.2 > m
    · rw [if_pos h, ih]
      simp only [maxHitsOf, List.map_cons, List.foldr_cons]
      omega
    · rw [if_neg h, ih]
      simp only [maxHitsOf, List.map_cons, List.foldr_cons]
      omega

/-- If nothing in the list beats the accumulator, the loop leaves it
unchanged. -/
theorem bestFold_const (blob : String) :
    ∀ (l : List (String × List String)) (b : String) (m : Nat),
      maxHitsOf blob l ≤ m →
      l.foldl (fun best e =>
        if hitsOf blob e.2 > best.2 then (e.1, hitsOf blob e.2) else best) (b, m)
      = (b, m) := by
  intro l
  induction l with
  | nil => intro b m _; rfl
  | cons e rest ih =>
    intro b m h
    simp only [maxHitsOf, List.map_cons, List.foldr_cons] at h
    have he : ¬ hitsOf blob e.2 > m := by omega
    simp only [List.foldl_cons]
    rw [if_neg he]
    exact ih b m (by simp only [maxHitsOf]; omega)

/-- If something in the list beats the accumulator, the loop ends at the
first entry attaining the list's maximal hit count. -/
theorem bestFold_find (blob : String) :
    ∀ (l : List (String × List String)) (b : String) (m : Nat),
      m < maxHitsOf blob l →
      ∃ e, l.find? (fun e => hitsOf blob e.2 == maxHitsOf blob l) = some e
        ∧ l.foldl (fun best e =>
            if hitsOf blob e.2 > best.2 then (e.1, hitsOf blob e.2) else best) (b, m)
          = (e.1, maxHitsOf blob l) := by
  intro l
  induction l with
  | nil => intro b m h; simp [maxHitsOf] at h
  | cons e rest ih =>
    intro b m h
    have hM : maxHitsOf blob (e :: rest)
        = max (hitsOf blob e.2) (maxHitsOf blob rest) := by
      simp [maxHitsOf]
    by_cases hgt : hitsOf blob e.2 > m
    · by_cases hrest : maxHitsOf blob rest ≤ hitsOf blob e.2
      · have hMe : maxHitsOf blob (e :: rest) = hitsOf blob e.2 := by rw [hM]; omega
        refine ⟨e, ?_, ?_⟩
        · rw [List.find?_cons_of_pos]
          simp [hMe]
        · simp only [List.foldl_cons, gt_iff_lt]
          rw [if_pos hgt, hMe]
          exact bestFold_const blob rest e.1 (hitsOf blob e.2) hrest
      · push_neg at hrest
        have hMe : maxHitsOf blob (e :: rest) = maxHitsOf blob rest := by rw [hM]; omega
        obtain ⟨f, hf, hfold⟩ := ih e.1 (hitsOf blob e.2) hrest
        refine ⟨f, ?_, ?_⟩
        · rw [List.find?_cons_of_neg]
          · rw [hMe]; exact hf
          · simp [hMe]; omega
        · simp only [List.foldl_cons, gt_iff_lt]
          rw [if_pos hgt, hMe]
          exact hfold
    · push_neg at hgt
      have hrest : m < maxHitsOf blob rest := by rw [hM] at h; omega
      have hMe : maxHitsOf blob (e :: rest) = maxHitsOf blob rest := by rw [hM]; omega
      obtain ⟨f, hf, hfold⟩ := ih b m hrest
      refine ⟨f, ?_, ?_⟩
      · rw [List.find?_cons_of_neg]
        · rw [hMe]; exact hf
        · simp [hMe]; omega
      · simp only [List.foldl_cons, gt_iff_lt]
        rw [if_neg (by omega), hMe]
        exact hfold

/-- C2 (amended): classification scores each signal entry by keyword
hits on the lowercased blob; the best hit count is the maximum over the
table; a strictly positive maximum selects the first entry attaining it
(so the highest score wins and ties go to the first-listed label), but
when every entry scores 0 the label stays "Unknown" — not the first
table entry, as the original claim said; confidence is "high" iff hits ≥
3, "medium" iff hits = 2, "low" iff hits ≤ 1 (0 and 1 both map to
"low"). -/
theorem doc_type_classification_amended :
    ∀ (blob : String) (h : Nat),
      ((bestSignal blob).2 = maxHitsList blob)
      ∧ (maxHitsList blob = 0 → bestSignal blob = ("Unknown", 0))
      ∧ (0 < maxHitsList blob →
          ∃ e, docSignals.find? (fun e => hitsOf blob e.2 == maxHitsList blob) = some e
            ∧ bestSignal blob = (e.1, maxHitsList blob))
      ∧ ((docTypeConfidence h = "high") ↔ 3 ≤ h)
      ∧ ((docTypeConfidence h = "medium") ↔ h = 2)
      ∧ ((docTypeConfidence h = "low") ↔ h ≤ 1) := by
  intro blob h
  refine ⟨?_, ?_, ?_, ?_, ?_, ?_⟩
  · rw [bestSignal, maxHitsList, bestFold_snd]
    omega
  · intro h0
    rw [maxHitsList] at h0
    rw [bestSignal]
    exact bestFold_const blob docSignals "Unknown" 0 (by omega)
  · intro hpos
    rw [maxHitsList] at hpos ⊢
    rw [bestSignal]
    exact bestFold_find blob docSignals "Unknown" 0 hpos
  · unfold docTypeConfidence
    split_ifs with h1 h2 h3
    · exact ⟨fun _ => h1, fun _ => rfl⟩
    · exact ⟨fun hx => absurd hx (by decide), fun hx => absurd hx h1⟩
    · exact ⟨fun hx => absurd hx (by decide), fun hx => absurd hx h1⟩
    · exact ⟨fun hx => absurd hx (by decide), fun hx => absurd hx h1⟩
  · unfold docTypeConfidence
    split_ifs with h1 h2 h3
    · exact ⟨fun hx => absurd hx (by decide), fun hx => by omega⟩
    · exact ⟨fun _ => h2, fun _ => rfl⟩
    · exact ⟨fun hx => absurd hx (by decide), fun hx => absurd hx h2⟩
    · exact ⟨fun hx => absurd hx (by decide), fun hx => absurd hx h2⟩
  · unfold docTypeConfidence
    split_ifs with h1 h2 h3
    · exact ⟨fun hx => absurd hx (by decide), fun hx => by omega⟩
    · exact ⟨fun hx => absurd hx (by decide), fun hx => by omega⟩
    · exact ⟨fun _ => by omega, fun _ => rfl⟩
    · exact ⟨fun _ => by omega, fun _ => rfl⟩

/-- C2 counterexample to the original claim: on a document with zero
signal hits, the selected document type is "Unknown", not the first
table entry "Invoice/Receipt". -/
theorem doc_type_zero_hits_counterexample :
    maxHitsList (pyLower "hello world") = 0
    ∧ (buildSummaryFromText "hello world" none [] none none).2.lookup "document_type"
        = some "Unknown"
    ∧ (buildSummaryFromText "hello world" none [] none none).2.lookup "document_type"
        ≠ some "Invoice/Receipt" := by
  exact ⟨by decide, rfl, by decide⟩

/-- Witness for C2 at concrete blobs: an all-zero blob keeps
("Unknown", 0), and a blob hitting only the Invoice/Receipt entry
selects it. -/
theorem doc_type_classification_witness :
    bestSignal "hello" = ("Unknown", 0)
    ∧ (bestSignal "total").1 = "Invoice/Receipt" := by
  constructor
  · exact (doc_type_classification_amended "hello" 0).2.1 (by decide)
  · obtain ⟨e, he, hb⟩ := (doc_type_classification_amended "total" 0).2.2.1 (by decide)
    have he2 : docSignals.find? (fun e => hitsOf "total" e.2 == maxHitsList "total")
        = some ("Invoice/Receipt",
          ["invoice", "receipt", "subtotal", "total", "amount due", "balance due",
           "vat", "tax", "paid"]) := by decide
    rw [he] at he2
    rw [hb, Option.some.inj he2]

/-- Looking a document up after updateDoc applies the update exactly on
that id. -/
theorem lookup_updateDoc :
    ∀ (docs : List (String × SDoc)) (documentId : String) (f : SDoc → SDoc),
      (updateDoc docs documentId f).lookup documentId
        = (docs.lookup documentId).map f := by
  intro docs documentId f
  induction docs with
  | nil => rfl
  | cons p m ih =>
    obtain ⟨a, d⟩ := p
    by_cases hp : a = documentId
    · subst hp
      simp only [updateDoc, List.map_cons, if_true, ite_true, eq_self_iff_true]
      simp [List.lookup]
    · have hbe : (documentId == a) = false :=
        beq_eq_false_iff_ne.mpr (fun hx => hp hx.symm)
      simp only [updateDoc, List.map_cons, if_neg hp]
      simp only [List.lookup, hbe]
      exact ih

/-- C7: build_summary fails with document_not_found when the id is
absent, fails with the distinct error document_not_validated when the
status is neither validated nor summarized (so in particular on
review_in_progress), and succeeds on validated or summarized documents,
moving the document to status summarized. -/
theorem build_summary_error_conditions :
    ∀ (st : SState) (documentId : String) (mo : Option String)
      (attempts : List LlmAttempt),
      (st.docs.lookup documentId = none →
        buildSummary st documentId mo attempts = .error "document_not_found")
      ∧ (∀ doc, st.docs.lookup documentId = some doc →
          doc.status ≠ "validated" → doc.status ≠ "summarized" →
          buildSummary st documentId mo attempts = .error "document_not_validated")
      ∧ (∀ doc, st.docs.lookup documentId = some doc →
          (doc.status = "validated" ∨ doc.status = "summarized") →
          ∃ r, buildSummary st documentId mo attempts = .ok r
            ∧ ∃ d, r.1.docs.lookup documentId = some d ∧ d.status = "summarized") := by
  intro st documentId mo attempts
  refine ⟨?_, ?_, ?_⟩
  · intro h
    unfold buildSummary
    rw [h]
  · intro doc h h1 h2
    unfold buildSummary
    rw [h]
    simp [h1, h2]
  · intro doc h hval
    unfold buildSummary
    rw [h]
    have hc : (!(decide (doc.status = "validated") || decide (doc.status = "summarized")))
        = false := by
      rcases hval with h1 | h1 <;> simp [h1]
    simp only [hc, Bool.false_eq_true, if_false, ite_false]
    refine ⟨_, rfl, ?_⟩
    rw [lookup_updateDoc, h]
    exact ⟨_, rfl, rfl⟩

/-- Witness for C7 on concrete stores: a missing id, a document stuck in
review_in_progress, and a validated document that summarizes
successfully. -/
theorem build_summary_error_conditions_witness :
    (buildSummary ⟨[], []⟩ "d0" none [] = .error "document_not_found")
    ∧ (buildSummary
        ⟨[("d1", ⟨"review_in_progress", some "x", [], none, none⟩)], []⟩
        "d1" none [] = .error "document_not_validated")
    ∧ (∃ r, buildSummary
        ⟨[("d2", ⟨"validated", some "Acme Corp", [], none, none⟩)], []⟩
        "d2" none [] = .ok r
        ∧ ∃ d, r.1.docs.lookup "d2" = some d ∧ d.status = "summarized") := by
  refine ⟨?_, ?_, ?_⟩
  · exact (build_summary_error_conditions ⟨[], []⟩ "d0" none []).1 rfl
  · exact (build_summary_error_conditions _ "d1" none []).2.1
      ⟨"review_in_progress", some "x", [], none, none⟩ rfl (by decide) (by decide)
  · exact (build_summary_error_conditions _ "d2" none []).2.2
      ⟨"validated", some "Acme Corp", [], none, none⟩ rfl (Or.inl rfl)

/-- dictInsert neither adds nor removes keys other than the inserted
one. -/
theorem dictInsert_key_iff :
    ∀ (m : List (String × String)) (k v tid : String),
      (∃ p ∈ dictInsert m k v, p.1 = tid) ↔ ((∃ p ∈ m, p.1 = tid) ∨ k = tid) := by
  intro m k v tid
  induction m with
  | nil => simp [dictInsert]
  | cons p m ih =>
    by_cases hp : p.1 = k
    · rw [dictInsert, if_pos hp]
      constructor
      · rintro ⟨q, hq, hq1⟩
        rcases List.mem_cons.mp hq with rfl | hq2
        · exact Or.inr hq1
        · exact Or.inl ⟨q, List.mem_cons_of_mem _ hq2, hq1⟩
      · rintro (⟨q, hq, hq1⟩ | hk)
        · rcases List.mem_cons.mp hq with rfl | hq2
          · exact ⟨(k, v), List.mem_cons_self _ _, hp.symm.trans hq1⟩
          · exact ⟨q, List.mem_cons_of_mem _ hq2, hq1⟩
        · exact ⟨(k, v), List.mem_cons_self _ _, hk⟩
    · rw [dictInsert, if_neg hp]
      simp only [List.mem_cons]
      constructor
      · rintro ⟨q, hq | hq, hq1⟩
        · exact Or.inl ⟨q, Or.inl hq, hq1⟩
        · rcases ih.mp ⟨q, hq, hq1⟩ with ⟨q2, hq2, hq21⟩ | hk
          · exact Or.inl ⟨q2, Or.inr hq2, hq21⟩
          · exact Or.inr hk
      · rintro (⟨q, hq | hq, hq1⟩ | hk)
        · exact ⟨q, Or.inl hq, hq1⟩
        · rcases ih.mpr (Or.inl ⟨q, hq, hq1⟩) with ⟨q2, hq2, hq21⟩
          exact ⟨q2, Or.inr hq2, hq21⟩
        · rcases ih.mpr (Or.inr hk) with ⟨q2, hq2, hq21⟩
          exact ⟨q2, Or.inr hq2, hq21⟩

/-- The keys of corrections_by_token are exactly the token ids of the
supplied corrections. -/
theorem correctionsDict_key_iff :
    ∀ (l : List (String × String)) (tid : String),
      (∃ p ∈ correctionsDict l, p.1 = tid) ↔ (∃ c ∈ l, c.1 = tid) := by
  have general : ∀ (l : List (String × String)) (m : List (String × String))
      (tid : String),
      (∃ p ∈ l.foldl (fun m kv => dictInsert m kv.1 kv.2) m, p.1 = tid)
        ↔ ((∃ p ∈ m, p.1 = tid) ∨ ∃ c ∈ l, c.1 = tid) := by
    intro l
    induction l with
    | nil => intro m tid; simp
    | cons kv l ih =>
      intro m tid
      rw [List.foldl_cons, ih, dictInsert_key_iff]
      simp only [List.mem_cons]
      constructor
      · rintro (⟨⟨q, hq, hq1⟩ | hk⟩ | ⟨c, hc, hc1⟩)
        · exact Or.inl ⟨q, hq, hq1⟩
        · exact Or.inr ⟨kv, Or.inl rfl, hk⟩
        · exact Or.inr ⟨c, Or.inr hc, hc1⟩
      · rintro (⟨q, hq, hq1⟩ | ⟨c, hc | hc, hc1⟩)
        · exact Or.inl (Or.inl ⟨q, hq, hq1⟩)
        · exact Or.inl (Or.inr (hc ▸ hc1))
        · exact Or.inr ⟨c, hc, hc1⟩
  intro l tid
  simpa using general l [] tid

/-- If every forced-review token is covered by reviewed_token_ids or a
correction, the missing list of apply_corrections is empty. -/
theorem forcedMissing_eq_nil :
    ∀ (st : VState) (corrections : List (String × String))
      (reviewedTokenIds : List String),
      (∀ t ∈ st.tokens, t.forcedReview = true →
        (t.id ∈ reviewedTokenIds ∨ ∃ c ∈ corrections, c.1 = t.id)) →
      ((st.tokens.filter (fun t => t.forcedReview)).map (fun t => t.id)).filter
        (fun tid => !(reviewedTokenIds.contains tid
          || (correctionsDict corrections).any (fun p => p.1 = tid))) = [] := by
  intro st corrections reviewedTokenIds hcov
  apply List.filter_eq_nil_iff.mpr
  intro tid htid
  rcases List.mem_map.mp htid with ⟨t, htf, rfl⟩
  rcases List.mem_filter.mp htf with ⟨ht, hforced⟩
  rcases hcov t ht hforced with hin | ⟨c, hc, hc1⟩
  · have hc2 : reviewedTokenIds.contains t.id = true := by simpa using hin
    simp only [hc2, Bool.true_or, Bool.not_true]
    exact Bool.false_ne_true
  · have hc2 : ((correctionsDict corrections).any (fun p => p.1 = t.id)) = true := by
      simp only [List.any_eq_true, decide_eq_true_eq]
      exact (correctionsDict_key_iff corrections t.id).mpr ⟨c, hc, hc1⟩
    simp only [hc2, Bool.or_true, Bool.not_true]
    exact Bool.false_ne_true

/-- C1: completing review with a forced-review token covered by neither
reviewed_token_ids nor a correction fails with review_incomplete
(returning no state: the raise rolls the transaction back before any
Correction insert, status change or validated_text write); when every
forced-review token is covered by the union of the two lists, completion
proceeds and validates the document. -/
theorem apply_corrections_review_incomplete_all_or_nothing :
    ∀ (st : VState) (doc : VDoc) (corrections : List (String × String))
      (reviewedTokenIds : List String) (sf : Option (List (String × String)))
      (now : Nat),
      st.doc = some doc →
      ((∃ t ∈ st.tokens, t.forcedReview = true ∧ t.id ∉ reviewedTokenIds
          ∧ ∀ c ∈ corrections, c.1 ≠ t.id) →
        applyCorrections st corrections reviewedTokenIds true sf now
          = .error "review_incomplete")
      ∧ ((∀ t ∈ st.tokens, t.forcedReview = true →
            (t.id ∈ reviewedTokenIds ∨ ∃ c ∈ corrections, c.1 = t.id)) →
          ∃ r, applyCorrections st corrections reviewedTokenIds true sf now = .ok r
            ∧ r.2.2.1 = "validated") := by
  intro st doc corrections reviewedTokenIds sf now hdoc
  constructor
  · rintro ⟨t, ht, hforced, hrev, hcorr⟩
    have hmem : t.id ∈ (st.tokens.filter (fun t => t.forcedReview)).map
        (fun t => t.id) :=
      List.mem_map.mpr ⟨t, List.mem_filter.mpr ⟨ht, hforced⟩, rfl⟩
    have h1 : reviewedTokenIds.contains t.id = false := by simpa using hrev
    have h2 : ((correctionsDict corrections).any (fun p => p.1 = t.id)) = false := by
      simp only [List.any_eq_false, decide_eq_true_eq]
      intro p hp hpt
      rcases (correctionsDict_key_iff corrections t.id).mp ⟨p, hp, hpt⟩ with ⟨c, hc, hc1⟩
      exact hcorr c hc hc1
    have hpred : (!(reviewedTokenIds.contains t.id
        || (correctionsDict corrections).any (fun p => p.1 = t.id))) = true := by
      rw [h1, h2]; rfl
    have hne : ((st.tokens.filter (fun t => t.forcedReview)).map (fun t => t.id)).filter
        (fun tid => !(reviewedTokenIds.contains tid
          || (correctionsDict corrections).any (fun p => p.1 = tid))) ≠ [] := by
      intro hnil
      have hft : t.id ∈ ((st.tokens.filter (fun t => t.forcedReview)).map
          (fun t => t.id)).filter
          (fun tid => !(reviewedTokenIds.contains tid
            || (correctionsDict corrections).any (fun p => p.1 = tid))) :=
        List.mem_filter.mpr ⟨hmem, by exact hpred⟩
      rw [hnil] at hft
      exact absurd hft (List.not_mem_nil _)
    have hniEmpty : (((st.tokens.filter (fun t => t.forcedReview)).map
        (fun t => t.id)).filter
        (fun tid => !(reviewedTokenIds.contains tid
          || (correctionsDict corrections).any (fun p => p.1 = tid)))).isEmpty
        = false := by
      rcases hx : ((st.tokens.filter (fun t => t.forcedReview)).map
        (fun t => t.id)).filter
        (fun tid => !(reviewedTokenIds.contains tid
          || (correctionsDict corrections).any (fun p => p.1 = tid))) with _ | ⟨y, ys⟩
      · exact absurd hx hne
      · rw [hx]; rfl
    unfold applyCorrections
    rw [hdoc]
    simp only []
    simp only [Bool.true_and]
    rw [hniEmpty]
    rfl
  · intro hcov
    have hmiss := forcedMissing_eq_nil st corrections reviewedTokenIds hcov
    unfold applyCorrections
    rw [hdoc]
    simp only [Bool.true_and]
    rw [hmiss]
    exact ⟨_, rfl, rfl⟩

/-- Witness for C1: one forced-review token; completion with it
uncovered fails with review_incomplete, completion with it reviewed
validates. -/
theorem apply_corrections_review_incomplete_witness :
    (applyCorrections
        ⟨some ⟨"ocr_done", none, []⟩, [⟨"t1", 0, 0, "Total", true⟩], [], []⟩
        [] [] true none 0 = .error "review_incomplete")
    ∧ (∃ r, applyCorrections
        ⟨some ⟨"ocr_done", none, []⟩, [⟨"t1", 0, 0, "Total", true⟩], [], []⟩
        [] ["t1"] true none 0 = .ok r ∧ r.2.2.1 = "validated") := by
  constructor
  · exact (apply_corrections_review_incomplete_all_or_nothing
      ⟨some ⟨"ocr_done", none, []⟩, [⟨"t1", 0, 0, "Total", true⟩], [], []⟩
      ⟨"ocr_done", none, []⟩ [] [] none 0 rfl).1 (by decide)
  · exact (apply_corrections_review_incomplete_all_or_nothing
      ⟨some ⟨"ocr_done", none, []⟩, [⟨"t1", 0, 0, "Total", true⟩], [], []⟩
      ⟨"ocr_done", none, []⟩ [] ["t1"] none 0 rfl).2 (by decide)

/-- Lookup after a setdefault-append: the appended key gains v at the
end of its list, every other key is untouched. -/
theorem sdAppend_lookup_getD :
    ∀ (m : List (Nat × List String)) (k0 : Nat) (v : String) (k : Nat),
      ((sdAppend m k0 v).lookup k).getD []
        = if k = k0 then ((m.lookup k).getD []) ++ [v] else (m.lookup k).getD [] := by
  intro m k0 v
  induction m with
  | nil =>
    intro k
    by_cases hk : k = k0
    · subst hk; simp [sdAppend, List.lookup]
    · have hbe : (k == k0) = false := beq_eq_false_iff_ne.mpr hk
      simp [sdAppend, List.lookup, hbe, hk]
  | cons p m ih =>
    intro k
    by_cases hp : p.1 = k0
    · rw [sdAppend, if_pos hp]
      by_cases hk : k = p.1
      · have hbe : (k == p.1) = true := beq_iff_eq.mpr hk
        have hk0 : k = k0 := hk.trans hp
        have hbe0 : (k0 == p.1) = true := beq_iff_eq.mpr hp.symm
        simp [List.lookup, hbe, hk0, hbe0]
      · have hbe : (k == p.1) = false := beq_eq_false_iff_ne.mpr hk
        have hkk0 : k ≠ k0 := fun hx => hk (hx.trans hp.symm)
        simp [List.lookup, hbe, hkk0]
    · rw [sdAppend, if_neg hp]
      by_cases hk : k = p.1
      · have hbe : (k == p.1) = true := beq_iff_eq.mpr hk
        have hkk0 : k ≠ k0 := fun hx => hp (hk ▸ hx)
        simp [List.lookup, hbe, hkk0]
      · have hbe : (k == p.1) = false := beq_eq_false_iff_ne.mpr hk
        simp only [List.lookup, hbe]
        exact ih k

/-- The validated_lines dict built over a token list: each key holds the
effective texts of its tokens in traversal order. -/
theorem groupLines_lookup_getD :
    ∀ (ts : List VToken) (dict : List (String × String))
      (m : List (Nat × List String)) (k : Nat),
      ((ts.foldl (fun m t => sdAppend m t.lineIndex (effText dict t)) m).lookup k).getD []
        = ((m.lookup k).getD [])
          ++ (ts.filter (fun t => t.lineIndex = k)).map (effText dict) := by
  intro ts dict
  induction ts with
  | nil => intro m k; simp
  | cons t ts ih =>
    intro m k
    rw [List.foldl_cons, ih]
    rw [sdAppend_lookup_getD]
    by_cases hk : t.lineIndex = k
    · rw [if_pos hk.symm]
      have : (t :: ts).filter (fun t => t.lineIndex = k)
          = t :: ts.filter (fun t => t.lineIndex = k) := by
        simp [List.filter_cons, hk]
      rw [this, List.map_cons, List.append_assoc]
      rfl
    · rw [if_neg (fun hx => hk hx.symm)]
      have : (t :: ts).filter (fun t => t.lineIndex = k)
          = ts.filter (fun t => t.lineIndex = k) := by
        simp [List.filter_cons, hk]
      rw [this]

/-- Keys of a setdefault-append: unchanged for a present key, the new
key appended otherwise. -/
theorem sdAppend_keys :
    ∀ (m : List (Nat × List String)) (k0 : Nat) (v : String),
      (sdAppend m k0 v).map Prod.fst
        = if k0 ∈ m.map Prod.fst then m.map Prod.fst else m.map Prod.fst ++ [k0] := by
  intro m k0 v
  induction m with
  | nil => simp [sdAppend]
  | cons p m ih =>
    by_cases hp : p.1 = k0
    · rw [sdAppend, if_pos hp]
      simp [hp]
    · rw [sdAppend, if_neg hp]
      have hne : k0 ∈ p.1 :: m.map Prod.fst ↔ k0 ∈ m.map Prod.fst := by
        simp only [List.mem_cons]
        exact ⟨fun h => h.resolve_left (fun hx => hp hx.symm), Or.inr⟩
      by_cases hm : k0 ∈ m.map Prod.fst
      · simp only [List.map_cons, ih, if_pos hm]
        rw [if_pos (hne.mpr hm)]
      · simp only [List.map_cons, ih, if_neg hm]
        rw [if_neg (fun hx => hm (hne.mp hx))]
        simp

/-- Membership in the keys of the validated_lines dict. -/
theorem groupKeys_mem :
    ∀ (ts : List VToken) (dict : List (String × String))
      (m : List (Nat × List String)) (k : Nat),
      (k ∈ (ts.foldl (fun m t => sdAppend m t.lineIndex (effText dict t)) m).map Prod.fst)
        ↔ (k ∈ m.map Prod.fst ∨ k ∈ ts.map (fun t => t.lineIndex)) := by
  intro ts dict
  induction ts with
  | nil => intro m k; simp
  | cons t ts ih =>
    intro m k
    rw [List.foldl_cons, ih]
    rw [sdAppend_keys]
    by_cases hm : t.lineIndex ∈ m.map Prod.fst
    · rw [if_pos hm]
      simp only [List.map_cons, List.mem_cons]
      constructor
      · rintro (h | h)
        · exact Or.inl h
        · exact Or.inr (Or.inr h)
      · rintro (h | rfl | h)
        · exact Or.inl h
        · exact Or.inl hm
        · exact Or.inr h
    · rw [if_neg hm]
      simp only [List.mem_append, List.mem_singleton, List.map_cons, List.mem_cons]
      tauto

/-- The keys of the validated_lines dict stay duplicate-free. -/
theorem groupKeys_nodup :
    ∀ (ts : List VToken) (dict : List (String × String))
      (m : List (Nat × List String)),
      (m.map Prod.fst).Nodup →
      ((ts.foldl (fun m t => sdAppend m t.lineIndex (effText dict t)) m).map Prod.fst).Nodup := by
  intro ts dict
  induction ts with
  | nil => intro m h; exact h
  | cons t ts ih =>
    intro m h
    rw [List.foldl_cons]
    apply ih
    rw [sdAppend_keys]
    by_cases hm : t.lineIndex ∈ m.map Prod.fst
    · rw [if_pos hm]; exact h
    · rw [if_neg hm]
      have hperm : List.Perm ((m.map Prod.fst) ++ [t.lineIndex])
          (t.lineIndex :: m.map Prod.fst) :=
        List.perm_append_singleton t.lineIndex (m.map Prod.fst)
      exact hperm.nodup_iff.mpr (List.nodup_cons.mpr ⟨hm, h⟩)

/-- The sorted keys of the validated_lines dict are exactly the distinct
line indices in ascending order. -/
theorem keysImpl_eq_lineKeysSpec (tokens : List VToken) (dict : List (String × String)) :
    ((groupLines dict (tokens.insertionSort tokOrder)).map Prod.fst).insertionSort (· ≤ ·)
      = lineKeysSpec tokens := by
  have hgknodup : ((groupLines dict (tokens.insertionSort tokOrder)).map Prod.fst).Nodup :=
    groupKeys_nodup (tokens.insertionSort tokOrder) dict [] (by simp)
  have hgkmem : ∀ k, k ∈ (groupLines dict (tokens.insertionSort tokOrder)).map Prod.fst
      ↔ k ∈ (tokens.insertionSort tokOrder).map (fun t => t.lineIndex) := by
    intro k
    have h := groupKeys_mem (tokens.insertionSort tokOrder) dict [] k
    simpa [groupLines] using h
  have h1nodup : (((groupLines dict (tokens.insertionSort tokOrder)).map
      Prod.fst).insertionSort (· ≤ ·)).Nodup :=
    (List.perm_insertionSort _ _).nodup_iff.mpr hgknodup
  have h1sorted : (((groupLines dict (tokens.insertionSort tokOrder)).map
      Prod.fst).insertionSort (· ≤ ·)).Sorted (· ≤ ·) :=
    List.sorted_insertionSort _ _
  have h2nodup : (lineKeysSpec tokens).Nodup := List.nodup_dedup _
  have h2sorted : (lineKeysSpec tokens).Sorted (· ≤ ·) :=
    List.Pairwise.sublist (List.dedup_sublist _) (List.sorted_insertionSort _ _)
  have hmemall : ∀ k, k ∈ ((groupLines dict (tokens.insertionSort tokOrder)).map
      Prod.fst).insertionSort (· ≤ ·) ↔ k ∈ lineKeysSpec tokens := by
    intro k
    rw [List.mem_insertionSort, hgkmem k]
    unfold lineKeysSpec
    rw [List.mem_dedup, List.mem_insertionSort]
    exact ((List.perm_insertionSort tokOrder tokens).map (fun t => t.lineIndex)).mem_iff
  exact List.eq_of_perm_of_sorted
    ((List.perm_ext_iff_of_nodup h1nodup h2nodup).mpr hmemall) h1sorted h2sorted

/-- The validated_text apply_corrections assembles through its
per-line-index dict is exactly the specification's reassembly: lines in
ascending line-index order, each the space-join of its tokens' effective
texts. -/
theorem groupedText_eq_reassembleSpec (tokens : List VToken)
    (corrections : List (String × String)) :
    "\n".intercalate
      ((((groupLines (correctionsDict corrections) (tokens.insertionSort tokOrder)).map
          Prod.fst).insertionSort (· ≤ ·)).map
        (fun k => " ".intercalate
          (((groupLines (correctionsDict corrections)
            (tokens.insertionSort tokOrder)).lookup k).getD [])))
      = reassembleSpec tokens corrections := by
  rw [keysImpl_eq_lineKeysSpec]
  unfold reassembleSpec
  congr 1
  have hlook : ∀ k, ((groupLines (correctionsDict corrections)
      (tokens.insertionSort tokOrder)).lookup k).getD []
      = ((tokens.insertionSort tokOrder).filter (fun t => t.lineIndex = k)).map
        (effText (correctionsDict corrections)) := by
    intro k
    have h := groupLines_lookup_getD (tokens.insertionSort tokOrder)
      (correctionsDict corrections) [] k
    simpa [groupLines] using h
  simp only [hlook]

/-- C6: apply_corrections returns the reassembled text (effective token
texts joined by single spaces within a line, lines joined by newlines in
ascending line-index order); a partial save (review_complete = false)
moves the document to review_in_progress, leaves the stored
validated_text unchanged and returns no validated_at; a completed review
(completeness satisfied) moves it to validated, persists the reassembled
text and stamps validated_at. -/
theorem apply_corrections_reassembly_and_frame :
    ∀ (st : VState) (doc : VDoc) (corrections : List (String × String))
      (reviewedTokenIds : List String) (sf : Option (List (String × String)))
      (now : Nat),
      st.doc = some doc →
      ((∃ r, applyCorrections st corrections reviewedTokenIds false sf now = .ok r
          ∧ r.2.1 = reassembleSpec st.tokens corrections
          ∧ r.2.2.1 = "review_in_progress"
          ∧ (∃ d, r.1.doc = some d ∧ d.status = "review_in_progress"
              ∧ d.validatedText = doc.validatedText)
          ∧ r.2.2.2 = none)
      ∧ ((∀ t ∈ st.tokens, t.forcedReview = true →
            (t.id ∈ reviewedTokenIds ∨ ∃ c ∈ corrections, c.1 = t.id)) →
          ∃ r, applyCorrections st corrections reviewedTokenIds true sf now = .ok r
            ∧ r.2.1 = reassembleSpec st.tokens corrections
            ∧ r.2.2.1 = "validated"
            ∧ (∃ d, r.1.doc = some d ∧ d.status = "validated"
                ∧ d.validatedText = some (reassembleSpec st.tokens corrections))
            ∧ r.2.2.2 = some now)) := by
  intro st doc corrections reviewedTokenIds sf now hdoc
  constructor
  · unfold applyCorrections
    rw [hdoc]
    rcases sf with _ | fs
    · exact ⟨_, rfl, groupedText_eq_reassembleSpec st.tokens corrections, rfl,
        ⟨_, rfl, rfl, rfl⟩, rfl⟩
    · exact ⟨_, rfl, groupedText_eq_reassembleSpec st.tokens corrections, rfl,
        ⟨_, rfl, rfl, rfl⟩, rfl⟩
  · intro hcov
    have hmiss := forcedMissing_eq_nil st corrections reviewedTokenIds hcov
    unfold applyCorrections
    rw [hdoc]
    simp only [Bool.true_and]
    rw [hmiss]
    rcases sf with _ | fs
    · exact ⟨_, rfl, groupedText_eq_reassembleSpec st.tokens corrections, rfl,
        ⟨_, rfl, rfl, congrArg some (groupedText_eq_reassembleSpec st.tokens corrections)⟩,
        rfl⟩
    · exact ⟨_, rfl, groupedText_eq_reassembleSpec st.tokens corrections, rfl,
        ⟨_, rfl, rfl, congrArg some (groupedText_eq_reassembleSpec st.tokens corrections)⟩,
        rfl⟩

/-- Witness for C6 on a concrete two-line document with one correction:
both the partial-save branch and the completion branch, with the
reassembled text evaluated concretely. -/
theorem apply_corrections_reassembly_witness :
    (∃ r, applyCorrections
        ⟨some ⟨"ocr_done", some "old", []⟩,
         [⟨"b", 1, 0, "World", true⟩, ⟨"a", 0, 0, "Hello", false⟩,
          ⟨"c", 0, 1, "there", true⟩], [], []⟩
        [("b", "World!")] [] false none 7 = .ok r
        ∧ r.2.1 = reassembleSpec
            [⟨"b", 1, 0, "World", true⟩, ⟨"a", 0, 0, "Hello", false⟩,
             ⟨"c", 0, 1, "there", true⟩] [("b", "World!")]
        ∧ r.2.2.1 = "review_in_progress"
        ∧ (∃ d, r.1.doc = some d ∧ d.status = "review_in_progress"
            ∧ d.validatedText = some "old")
        ∧ r.2.2.2 = none)
    ∧ (∃ r, applyCorrections
        ⟨some ⟨"ocr_done", some "old", []⟩,
         [⟨"b", 1, 0, "World", true⟩, ⟨"a", 0, 0, "Hello", false⟩,
          ⟨"c", 0, 1, "there", true⟩], [], []⟩
        [("b", "World!")] ["c"] true none 7 = .ok r
        ∧ r.2.1 = reassembleSpec
            [⟨"b", 1, 0, "World", true⟩, ⟨"a", 0, 0, "Hello", false⟩,
             ⟨"c", 0, 1, "there", true⟩] [("b", "World!")]
        ∧ r.2.2.1 = "validated"
        ∧ (∃ d, r.1.doc = some d ∧ d.status = "validated"
            ∧ d.validatedText = some (reassembleSpec
                [⟨"b", 1, 0, "World", true⟩, ⟨"a", 0, 0, "Hello", false⟩,
                 ⟨"c", 0, 1, "there", true⟩] [("b", "World!")]))
        ∧ r.2.2.2 = some 7) := by
  constructor
  · exact (apply_corrections_reassembly_and_frame
      ⟨some ⟨"ocr_done", some "old", []⟩,
       [⟨"b", 1, 0, "World", true⟩, ⟨"a", 0, 0, "Hello", false⟩,
        ⟨"c", 0, 1, "there", true⟩], [], []⟩
      ⟨"ocr_done", some "old", []⟩ [("b", "World!")] [] none 7 rfl).1
  · exact (apply_corrections_reassembly_and_frame
      ⟨some ⟨"ocr_done", some "old", []⟩,
       [⟨"b", 1, 0, "World", true⟩, ⟨"a", 0, 0, "Hello", false⟩,
        ⟨"c", 0, 1, "there", true⟩], [], []⟩
      ⟨"ocr_done", some "old", []⟩ [("b", "World!")] ["c"] none 7 rfl).2 (by decide)

/-- Witness for C8 at a concrete member. -/
theorem document_status_missing_witness :
    statusValue DocumentStatus.uploaded ≠ "processing"
    ∧ statusValue DocumentStatus.uploaded ≠ "failed" :=
  document_status_missing_processing_failed DocumentStatus.uploaded

/-- Witness for C5 at a concrete score and text. -/
theorem classify_confidence_witness :
    classifyConfidence (95 / 100) = "trusted"
    ∧ classifyConfidence (85 / 100) = "medium"
    ∧ classifyConfidence (5 / 10) = "low"
    ∧ (mkOcrDecision "Total" (95 / 100)).forcedReview = true :=
  ⟨(classify_confidence_and_forced_review (95 / 100) "Total").1.mpr (by norm_num),
   (classify_confidence_and_forced_review (85 / 100) "Total").2.1.mpr (by norm_num),
   (classify_confidence_and_forced_review (5 / 10) "Total").2.2.1.mpr (by norm_num),
   (classify_confidence_and_forced_review (95 / 100) "Total").2.2.2.mpr
     (Or.inr (by decide))⟩

/-- Witness for C3 at the concrete locales. -/
theorem amount_normalization_witness :
    normalizeAmount "EU" "USD 1,234.50" = "USD 1234.50"
    ∧ normalizeAmount "US" "USD 1,234.50" = "USD 1234.50" :=
  ⟨amount_normalization_scenarios.1 "EU", amount_normalization_scenarios.1 "US"⟩

/-- Witness for C10 at a concrete document. -/
theorem structured_fields_keys_witness :
    (buildSummaryFromText "Acme Corp\n2026-02-01\nTotal $12.00" none [] none none).2.map
        Prod.fst =
      ["line_count", "word_count", "summary_points", "detailed_summary", "dates",
       "amounts", "invoice_numbers", "emails", "phones", "tax_ids", "document_type",
       "document_type_confidence", "keywords", "doc_type", "locale"] :=
  (structured_fields_keys_and_bullets "Acme Corp\n2026-02-01\nTotal $12.00"
    none [] none none).1

end Vera
